import Mathlib

/-!
Verification of the governance layer of `convex-mvp-builder`: path/command
policy engine, progress ledger invariants, atomic persistence, and the
preflight validator, shallowly embedded from the repository sources
(`GUARDRAILS.md`, `prompts/initializer_prompt.md`, the coding prompt,
`scripts/preflight.sh`, `scripts/verify-setup.js`).  The programmatic
enforcement module `utils/security.py` and the ledger mutation code are not
part of the provided sources; those definitions are modelled from the spec
and are marked as such in their doc comments.
-/

/-! ## Path classification (policy engine) -/

/-- Protection class of a filesystem path, per spec section 4.1 and
GUARDRAILS.md. -/
inductive PathClass
  | protected_
  | extendOnly
  | free
deriving DecidableEq, Repr

/-- Exact protected files from GUARDRAILS.md "NEVER MODIFY (Protected Files)":
`convex/auth.ts`, `convex/auth.config.ts`, `app/ConvexClientProvider.tsx`,
`app/layout.tsx`. -/
def protectedFiles : List String :=
  ["convex/auth.ts", "convex/auth.config.ts",
   "app/ConvexClientProvider.tsx", "app/layout.tsx"]

/-- Protected directory globs from GUARDRAILS.md: `convex/_generated/*`. -/
def protectedPrefixes : List String :=
  ["convex/_generated/"]

/-- Extend-only files from GUARDRAILS.md "EXTEND ONLY": `convex/schema.ts`
and `convex/http.ts`. -/
def extendOnlyFiles : List String :=
  ["convex/schema.ts", "convex/http.ts"]

/-- Does a path match a protected pattern (exact protected file, or under a
protected directory glob)? -/
def matchesProtected (p : String) : Bool :=
  protectedFiles.contains p || protectedPrefixes.any (fun pre => p.startsWith pre)

/-- Modelled from the spec: the path classifier of `utils/security.py` is not
in the provided sources; spec section 4.1 `classify(path)` with the static
lists of GUARDRAILS.md.  Protected wins over extend-only; everything else is
free. -/
def classifyPath (p : String) : PathClass :=
  if matchesProtected p then .protected_
  else if extendOnlyFiles.contains p then .extendOnly
  else .free

/-! ## Write operations and content -/

/-- A named top-level entry of a structured file (e.g. a named table in
`convex/schema.ts` or a named route in `convex/http.ts`). -/
structure NamedEntry where
  name : String
  body : String
deriving DecidableEq, Repr

/-- A proposed filesystem write.  `newContent = none` models a deletion;
`some []` models an empty write.  `oldContent` is the "before" content the
stateless policy engine receives for extend-only checks (spec section 4.3). -/
structure WriteOp where
  path : String
  oldContent : Option (List NamedEntry)
  newContent : Option (List NamedEntry)
deriving DecidableEq, Repr

/-- Named entries of an optional content (a missing file has none). -/
def entriesOf : Option (List NamedEntry) → List NamedEntry
  | none => []
  | some es => es

/-- Modelled from the spec: the extend-only structural-superset check of
`utils/security.py` is not in the provided sources; spec section 4.3 "allow
only if the proposed new content is a structural superset of existing content
(existing named entries must still be present)". -/
def extendOk (old new : Option (List NamedEntry)) : Bool :=
  (entriesOf old).all (fun en => (entriesOf new).any (fun en2 => en2.name == en.name))

/-- A policy decision: allow, or deny with an audit reason. -/
inductive Decision
  | allow
  | deny (reason : String)
deriving DecidableEq, Repr

/-- Is this decision a denial? -/
def Decision.isDeny : Decision → Bool
  | .allow => false
  | .deny _ => true

/-- Modelled from the spec: `authorize` for filesystem writes
(`utils/security.py` is not in the provided sources); spec section 4.3:
protected denies unconditionally, extend-only requires the superset check,
free allows.  The denial message follows GUARDRAILS.md. -/
def authorizeWrite (w : WriteOp) : Decision :=
  match classifyPath w.path with
  | .protected_ => .deny ("BLOCKED: Cannot modify protected file: " ++ w.path)
  | .extendOnly =>
      if extendOk w.oldContent w.newContent then .allow
      else .deny ("BLOCKED: extend-only file dropped an existing entry: " ++ w.path)
  | .free => .allow

/-! ## Command classification (policy engine) -/

/-- Execution class of a shell program, spec section 4.2. -/
inductive CmdClass
  | allow
  | restrict
  | block
deriving DecidableEq, Repr

/-- Always-allowed programs, from GUARDRAILS.md "Available Bash Commands /
Always Allowed". -/
def allowedPrograms : List String :=
  ["ls", "cat", "head", "tail", "wc", "grep", "find",
   "cp", "mkdir", "touch", "pwd", "cd",
   "npm", "node", "npx",
   "python", "python3", "pip", "pip3", "uv",
   "git", "make", "cargo", "go",
   "curl", "jq", "echo", "printf", "tee",
   "sort", "uniq", "tr", "cut", "sed", "awk",
   "xargs", "date", "env", "which",
   "basename", "dirname", "realpath",
   "test", "[", "true", "false",
   "ps", "lsof", "sleep", "timeout"]

/-- Restricted programs subject to extra validation, from GUARDRAILS.md
"Restricted (Extra Validation)": `pkill`, `chmod`, `init.sh`. -/
def restrictedPrograms : List String :=
  ["pkill", "chmod", "init.sh"]

/-- Development-server process names `pkill` may target, from GUARDRAILS.md:
only dev processes allowed. -/
def devProcessNames : List String :=
  ["node", "npm", "npx", "vite", "next", "python", "python3",
   "uvicorn", "gunicorn"]

/-- Modelled from the spec: the per-program restriction predicates of
`utils/security.py` are not in the provided sources; GUARDRAILS.md:
`pkill` only for dev process names, `chmod` only `+x`, `init.sh` only its
canonical argument-free invocations. -/
def restrictionPredicate : String → List String → Bool
  | "pkill", args => args.all (fun t => devProcessNames.contains t)
  | "chmod", args =>
      match args with
      | mode :: _ => mode == "+x"
      | [] => false
  | "init.sh", args => args.isEmpty
  | _, _ => false

/-- Modelled from the spec: the command classifier of `utils/security.py` is
not in the provided sources; spec section 4.2 with the GUARDRAILS.md lists,
unknown programs default to block. -/
def classifyCommand (prog : String) : CmdClass :=
  if allowedPrograms.contains prog then .allow
  else if restrictedPrograms.contains prog then .restrict
  else .block

/-- Modelled from the spec: `authorize` for shell commands
(`utils/security.py` is not in the provided sources); spec section 4.3:
allow-class runs, restrict-class runs iff its predicate holds, block-class
is denied. -/
def authorizeCommand (prog : String) (args : List String) : Decision :=
  match classifyCommand prog with
  | .allow => .allow
  | .restrict =>
      if restrictionPredicate prog args then .allow
      else .deny ("BLOCKED: restricted command failed validation: " ++ prog)
  | .block => .deny ("BLOCKED: command not in allowlist: " ++ prog)

/-! ## Claims about the policy engine -/

/-- Claim C1: for every filesystem path that matches a protected pattern
(`convex/auth.ts`, `convex/auth.config.ts`, `convex/_generated/*`,
`app/ConvexClientProvider.tsx`, `app/layout.tsx`), `authorize` returns deny
for every proposed write, for every content variant, including empty writes
and deletions. -/
theorem protected_paths_deny_all_writes
    (p : String) (old new : Option (List NamedEntry))
    (h : matchesProtected p = true) :
    authorizeWrite ⟨p, old, new⟩ =
      Decision.deny ("BLOCKED: Cannot modify protected file: " ++ p) := by
  simp only [authorizeWrite, classifyPath, h, if_true]

/-- Witness for C1: the protected file `convex/auth.ts` is denied even for a
deletion (no new content). -/
theorem protected_paths_deny_all_writes_witness :
    matchesProtected "convex/auth.ts" = true ∧
    authorizeWrite ⟨"convex/auth.ts", some [⟨"auth", "config"⟩], none⟩ =
      Decision.deny "BLOCKED: Cannot modify protected file: convex/auth.ts" :=
  ⟨by decide,
   protected_paths_deny_all_writes "convex/auth.ts"
     (some [⟨"auth", "config"⟩]) none (by decide)⟩

/-- Claim C3: for every shell command whose program is in neither the allow
list nor the restrict list, `authorize` returns deny (deny-by-default for
unknown programs), whatever the arguments. -/
theorem unknown_programs_denied
    (prog : String) (args : List String)
    (h1 : allowedPrograms.contains prog = false)
    (h2 : restrictedPrograms.contains prog = false) :
    (authorizeCommand prog args).isDeny = true := by
  simp only [authorizeCommand, classifyCommand, h1, h2, Bool.false_eq_true,
    if_false, Decision.isDeny]

/-- Witness for C3: `wget`, absent from both lists, is denied. -/
theorem unknown_programs_denied_witness :
    allowedPrograms.contains "wget" = false ∧
    restrictedPrograms.contains "wget" = false ∧
    (authorizeCommand "wget" ["https://example.com"]).isDeny = true :=
  ⟨by decide, by decide,
   unknown_programs_denied "wget" ["https://example.com"] (by decide) (by decide)⟩

/-- Claim C8: a restricted process-termination command (`pkill`) is permitted
iff every target process name belongs to the fixed dev-server allow-list
(`node`, `npm`, `npx`, `vite`, `next`, `python`, `python3`, `uvicorn`,
`gunicorn`); any target outside that list is denied. -/
theorem pkill_allowed_iff_dev_targets (targets : List String) :
    authorizeCommand "pkill" targets = Decision.allow ↔
      targets.all (fun t => devProcessNames.contains t) = true := by
  have hc : classifyCommand "pkill" = CmdClass.restrict := by decide
  have hr : restrictionPredicate "pkill" targets =
      targets.all (fun t => devProcessNames.contains t) := rfl
  simp only [authorizeCommand, hc, hr]
  cases hall : targets.all (fun t => devProcessNames.contains t)
  · simp [hall]
  · simp [hall]

/-- Claim C6: a write to an extend-only path is denied when the proposed new
content drops a previously-defined named top-level entry, and allowed when
every existing named entry is still present in the new content. -/
theorem extend_only_superset_check
    (p : String) (old new : Option (List NamedEntry))
    (hp : classifyPath p = PathClass.extendOnly) :
    ((∃ en ∈ entriesOf old, ∀ en2 ∈ entriesOf new, en2.name ≠ en.name) →
        (authorizeWrite ⟨p, old, new⟩).isDeny = true) ∧
    ((∀ en ∈ entriesOf old, ∃ en2 ∈ entriesOf new, en2.name = en.name) →
        authorizeWrite ⟨p, old, new⟩ = Decision.allow) := by
  simp only [authorizeWrite, hp]
  constructor
  · rintro ⟨en, hen, hdrop⟩
    cases hok : extendOk old new
    · simp [hok, Decision.isDeny]
    · exfalso
      rw [extendOk, List.all_eq_true] at hok
      have hany := hok en hen
      rw [List.any_eq_true] at hany
      obtain ⟨en2, hen2, heq⟩ := hany
      exact hdrop en2 hen2 (by simpa using heq)
  · intro hkeep
    have hok : extendOk old new = true := by
      rw [extendOk, List.all_eq_true]
      intro en hen
      rw [List.any_eq_true]
      obtain ⟨en2, hen2, heq⟩ := hkeep en hen
      exact ⟨en2, hen2, by simpa using heq⟩
    simp [hok]

/-- Witness for C6: on `convex/schema.ts`, dropping the existing `users`
entry is denied, while re-stating it and adding a `products` entry is
allowed. -/
theorem extend_only_superset_check_witness :
    (authorizeWrite ⟨"convex/schema.ts", some [⟨"users", "defineTable"⟩],
        some []⟩).isDeny = true ∧
    authorizeWrite ⟨"convex/schema.ts", some [⟨"users", "defineTable"⟩],
        some [⟨"users", "defineTable"⟩, ⟨"products", "defineTable"⟩]⟩ =
      Decision.allow :=
  ⟨(extend_only_superset_check "convex/schema.ts"
      (some [⟨"users", "defineTable"⟩]) (some []) (by decide)).1
      ⟨⟨"users", "defineTable"⟩, by decide, by decide⟩,
   (extend_only_superset_check "convex/schema.ts"
      (some [⟨"users", "defineTable"⟩])
      (some [⟨"users", "defineTable"⟩, ⟨"products", "defineTable"⟩])
      (by decide)).2 (by decide)⟩

/-! ## Progress ledger -/

/-- Category of a feature-list record (`prompts/initializer_prompt.md`). -/
inductive Category
  | functional
  | style
deriving DecidableEq, Repr

/-- One entry of `feature_list.json`, per the format in
`prompts/initializer_prompt.md`. -/
structure FeatureRecord where
  category : Category
  description : String
  steps : List String
  passes : Bool
deriving DecidableEq, Repr

/-- Compatibility of an old record with its updated version: description and
steps byte-identical, `passes` never transitions true to false. -/
def recordCompatible (a b : FeatureRecord) : Bool :=
  a.description == b.description && a.steps == b.steps && (!a.passes || b.passes)

/-- Modelled from the spec: the ledger code enforcing the checklist
invariants is not in the provided sources (only the prompt rules in
`prompts/initializer_prompt.md` and the coding prompt STEP 7); spec section
4.4 `validateInvariants(old, new)`: length may only grow, every old index
keeps description/steps byte-identical, and `passes` is monotone. -/
def validateInvariants (old new : List FeatureRecord) : Bool :=
  decide (old.length ≤ new.length) &&
  (List.range old.length).all (fun i =>
    match old.get? i, new.get? i with
    | some a, some b => recordCompatible a b
    | _, _ => false)

/-- Modelled from the spec: `recordPass` of the ledger is not in the provided
sources; spec section 4.4: it errors on an out-of-range index or on an
attempt to also alter `description`/`steps` (the optional arguments model
that attempt), succeeds without change on an already-passing record, and
otherwise flips `passes` to true. -/
def recordPass (c : List FeatureRecord) (i : Nat)
    (newDesc : Option String) (newSteps : Option (List String)) :
    Except String (List FeatureRecord) :=
  match c.get? i with
  | none => .error ("recordPass: index " ++ toString i ++ " out of range")
  | some r =>
      if newDesc.any (fun d => d != r.description) then
        .error "recordPass: description is immutable"
      else if newSteps.any (fun s => s != r.steps) then
        .error "recordPass: steps are immutable"
      else if r.passes then
        .ok c
      else
        .ok (c.set i { r with passes := true })

/-- The checklist state after a `recordPass` call: on an error the old state
is retained (spec section 7: rejected write, old state kept). -/
def applyRecordPass (c : List FeatureRecord) (i : Nat)
    (newDesc : Option String) (newSteps : Option (List String)) :
    List FeatureRecord :=
  match recordPass c i newDesc newSteps with
  | .ok c2 => c2
  | .error _ => c

/-- A session's checklist mutations: the sequence of `recordPass` calls it
issues, applied in order (spec section 4.6, `RECORD_RESULT`). -/
def sessionApply (c : List FeatureRecord) : List Nat → List FeatureRecord
  | [] => c
  | i :: ops => sessionApply (applyRecordPass c i none none) ops

/-- `recordCompatible` is reflexive. -/
theorem recordCompatible_refl (a : FeatureRecord) : recordCompatible a a = true := by
  cases h : a.passes <;> simp [recordCompatible, h]

/-- `recordCompatible` is transitive. -/
theorem recordCompatible_trans {a b c : FeatureRecord}
    (h1 : recordCompatible a b = true) (h2 : recordCompatible b c = true) :
    recordCompatible a c = true := by
  simp only [recordCompatible, Bool.and_eq_true, beq_iff_eq] at h1 h2 ⊢
  obtain ⟨⟨hd1, hs1⟩, hp1⟩ := h1
  obtain ⟨⟨hd2, hs2⟩, hp2⟩ := h2
  refine ⟨⟨hd1.trans hd2, hs1.trans hs2⟩, ?_⟩
  cases ha : a.passes <;> cases hb : b.passes <;> simp_all

/-- Inversion of a successful `validateInvariants`: the length bound and the
per-index compatibility. -/
theorem validateInvariants_inv {A B : List FeatureRecord}
    (h : validateInvariants A B = true) :
    A.length ≤ B.length ∧
    ∀ (j : Nat) (hj : j < A.length) (hbj : j < B.length),
      recordCompatible (A.get ⟨j, hj⟩) (B.get ⟨j, hbj⟩) = true := by
  rw [validateInvariants, Bool.and_eq_true, decide_eq_true_iff,
    List.all_eq_true] at h
  obtain ⟨hlen, hall⟩ := h
  refine ⟨hlen, fun j hj hbj => ?_⟩
  have hcomp := hall j (List.mem_range.mpr hj)
  simp only [List.get?_eq_get hj, List.get?_eq_get hbj] at hcomp
  exact hcomp

/-- Introduction rule for `validateInvariants` from the length bound and the
per-index compatibility. -/
theorem validateInvariants_of_pointwise
    (A B : List FeatureRecord) (hlen : A.length ≤ B.length)
    (hcomp : ∀ (j : Nat) (hj : j < A.length) (hbj : j < B.length),
       recordCompatible (A.get ⟨j, hj⟩) (B.get ⟨j, hbj⟩) = true) :
    validateInvariants A B = true := by
  rw [validateInvariants, Bool.and_eq_true, decide_eq_true_iff,
    List.all_eq_true]
  refine ⟨hlen, fun j hj => ?_⟩
  rw [List.mem_range] at hj
  have hbj := lt_of_lt_of_le hj hlen
  rw [List.get?_eq_get hj, List.get?_eq_get hbj]
  exact hcomp j hj hbj

/-- `validateInvariants` composes across consecutive transitions. -/
theorem validateInvariants_trans {A B C : List FeatureRecord}
    (h1 : validateInvariants A B = true) (h2 : validateInvariants B C = true) :
    validateInvariants A C = true := by
  obtain ⟨l1, p1⟩ := validateInvariants_inv h1
  obtain ⟨l2, p2⟩ := validateInvariants_inv h2
  refine validateInvariants_of_pointwise A C (l1.trans l2) (fun j hj hcj => ?_)
  have hbj := lt_of_lt_of_le hj l1
  exact recordCompatible_trans (p1 j hj hbj) (p2 j hbj hcj)

/-- `applyRecordPass` (passes-only) either leaves the checklist unchanged or
flips one not-yet-passing record to passing. -/
theorem applyRecordPass_cases (c : List FeatureRecord) (i : Nat) :
    applyRecordPass c i none none = c ∨
    ∃ hi : i < c.length, (c.get ⟨i, hi⟩).passes = false ∧
      applyRecordPass c i none none =
        c.set i { c.get ⟨i, hi⟩ with passes := true } := by
  rw [applyRecordPass, recordPass]
  cases hc : c.get? i with
  | none => exact Or.inl rfl
  | some r =>
    rw [List.get?_eq_some] at hc
    obtain ⟨hi, hr⟩ := hc
    cases hp : r.passes
    · refine Or.inr ⟨hi, by rw [hr]; exact hp, ?_⟩
      simp only [List.get_eq_getElem] at hr
      simp [Option.any, hp, hr]
    · exact Or.inl (by simp [Option.any, hp])

/-- One `recordPass` application keeps the checklist length. -/
theorem applyRecordPass_length (c : List FeatureRecord) (i : Nat) :
    (applyRecordPass c i none none).length = c.length := by
  rcases applyRecordPass_cases c i with h | ⟨hi, _, h⟩
  · rw [h]
  · rw [h, List.length_set]

/-- One `recordPass` application is pointwise compatible with the original
checklist. -/
theorem applyRecordPass_compat (c : List FeatureRecord) (i j : Nat)
    (hj : j < c.length) (hj2 : j < (applyRecordPass c i none none).length) :
    recordCompatible (c.get ⟨j, hj⟩)
      ((applyRecordPass c i none none).get ⟨j, hj2⟩) = true := by
  rcases applyRecordPass_cases c i with h | ⟨hi, hp, h⟩
  · simp only [List.get_eq_getElem, h]
    exact recordCompatible_refl _
  · by_cases hij : i = j
    · subst hij
      simp only [List.get_eq_getElem, h, List.getElem_set_self]
      simp [recordCompatible]
    · simp only [List.get_eq_getElem, h, List.getElem_set_ne hij]
      exact recordCompatible_refl _

/-- Every checklist a session reaches from `A` through `recordPass` calls
passes `validateInvariants` against `A`: recordPass-only sessions are valid
transitions. -/
theorem sessionApply_validates (ops : List Nat) (A : List FeatureRecord) :
    validateInvariants A (sessionApply A ops) = true := by
  induction ops generalizing A with
  | nil =>
      exact validateInvariants_of_pointwise A A le_rfl
        (fun j hj hbj => recordCompatible_refl _)
  | cons i ops ih =>
      refine validateInvariants_trans ?_ (ih (applyRecordPass A i none none))
      refine validateInvariants_of_pointwise _ _
        (le_of_eq (applyRecordPass_length A i).symm)
        (fun j hj hbj => applyRecordPass_compat A i j hj hbj)

/-- Claim C2: if checklist `B` results from one valid session transition from
`A` (one accepted by `validateInvariants`), then `B` is at least as long as
`A`, every index present in `A` keeps its description and steps byte-identical
in `B`, and no record transitions from passing to failing. -/
theorem valid_transition_checklist_invariants
    (A B : List FeatureRecord) (h : validateInvariants A B = true) :
    A.length ≤ B.length ∧
    ∀ (i : Nat) (hi : i < A.length) (hbi : i < B.length),
      (A.get ⟨i, hi⟩).description = (B.get ⟨i, hbi⟩).description ∧
      (A.get ⟨i, hi⟩).steps = (B.get ⟨i, hbi⟩).steps ∧
      ((A.get ⟨i, hi⟩).passes = true → (B.get ⟨i, hbi⟩).passes = true) := by
  obtain ⟨hlen, hall⟩ := validateInvariants_inv h
  refine ⟨hlen, fun i hi hbi => ?_⟩
  have hcomp := hall i hi hbi
  rw [recordCompatible, Bool.and_eq_true, Bool.and_eq_true] at hcomp
  obtain ⟨⟨hd, hs⟩, hp⟩ := hcomp
  refine ⟨by simpa using hd, by simpa using hs, fun hpa => ?_⟩
  rw [Bool.or_eq_true, Bool.not_eq_true'] at hp
  rcases hp with hp | hp
  · rw [hpa] at hp
    exact absurd hp (by simp)
  · exact hp

/-- Witness for C2: a transition that flips one record to passing and appends
a new record satisfies `validateInvariants`, and the invariants follow. -/
theorem valid_transition_checklist_invariants_witness :
    validateInvariants
        [⟨Category.functional, "create task", ["s1"], false⟩]
        [⟨Category.functional, "create task", ["s1"], true⟩,
         ⟨Category.style, "styling", [], false⟩] = true ∧
    ([⟨Category.functional, "create task", ["s1"], false⟩] :
        List FeatureRecord).length ≤
      ([⟨Category.functional, "create task", ["s1"], true⟩,
        ⟨Category.style, "styling", [], false⟩] : List FeatureRecord).length :=
  ⟨by decide,
   (valid_transition_checklist_invariants
      [⟨Category.functional, "create task", ["s1"], false⟩]
      [⟨Category.functional, "create task", ["s1"], true⟩,
       ⟨Category.style, "styling", [], false⟩] (by decide)).1⟩

/-- Claim C7: `recordPass` succeeds twice without change on an already-passing
in-range record, errors without modifying the checklist on an out-of-range
index, and errors without modifying the checklist on an attempt to also alter
the description or the steps. -/
theorem recordPass_idempotent_and_guarded :
    (∀ (c : List FeatureRecord) (i : Nat) (hi : i < c.length),
       (c.get ⟨i, hi⟩).passes = true →
       recordPass c i none none = Except.ok c ∧
       recordPass (applyRecordPass c i none none) i none none = Except.ok c) ∧
    (∀ (c : List FeatureRecord) (i : Nat), c.length ≤ i →
       (∃ m, recordPass c i none none = Except.error m) ∧
       applyRecordPass c i none none = c) ∧
    (∀ (c : List FeatureRecord) (i : Nat) (hi : i < c.length) (d : String),
       d ≠ (c.get ⟨i, hi⟩).description →
       (∃ m, recordPass c i (some d) none = Except.error m) ∧
       applyRecordPass c i (some d) none = c) ∧
    (∀ (c : List FeatureRecord) (i : Nat) (hi : i < c.length) (s : List String),
       s ≠ (c.get ⟨i, hi⟩).steps →
       (∃ m, recordPass c i none (some s) = Except.error m) ∧
       applyRecordPass c i none (some s) = c) := by
  refine ⟨fun c i hi hp => ?_, fun c i hi => ?_, fun c i hi d hd => ?_,
    fun c i hi s hs => ?_⟩
  · have hsome : c.get? i = some (c.get ⟨i, hi⟩) := List.get?_eq_get hi
    simp only [List.get_eq_getElem] at hp
    have hok : recordPass c i none none = Except.ok c := by
      rw [recordPass, hsome]
      simp [Option.any, hp]
    exact ⟨hok, by rw [applyRecordPass, hok]; exact hok⟩
  · have hnone : c.get? i = none := List.get?_eq_none.mpr hi
    have herr : recordPass c i none none =
        Except.error ("recordPass: index " ++ toString i ++ " out of range") := by
      rw [recordPass, hnone]
    exact ⟨⟨_, herr⟩, by rw [applyRecordPass, herr]⟩
  · have hsome : c.get? i = some (c.get ⟨i, hi⟩) := List.get?_eq_get hi
    simp only [List.get_eq_getElem] at hd
    have herr : recordPass c i (some d) none =
        Except.error "recordPass: description is immutable" := by
      rw [recordPass, hsome]
      simp [Option.any, bne_iff_ne, hd]
    exact ⟨⟨_, herr⟩, by rw [applyRecordPass, herr]⟩
  · have hsome : c.get? i = some (c.get ⟨i, hi⟩) := List.get?_eq_get hi
    simp only [List.get_eq_getElem] at hs
    have herr : recordPass c i none (some s) =
        Except.error "recordPass: steps are immutable" := by
      rw [recordPass, hsome]
      simp [Option.any, bne_iff_ne, hs]
    exact ⟨⟨_, herr⟩, by rw [applyRecordPass, herr]⟩

/-- Witness for C7: the four guarded behaviors at concrete checklists. -/
theorem recordPass_idempotent_and_guarded_witness :
    (recordPass [⟨Category.functional, "create task", ["s1"], true⟩] 0 none none =
        Except.ok [⟨Category.functional, "create task", ["s1"], true⟩] ∧
     recordPass
        (applyRecordPass [⟨Category.functional, "create task", ["s1"], true⟩]
          0 none none) 0 none none =
        Except.ok [⟨Category.functional, "create task", ["s1"], true⟩]) ∧
    ((∃ m, recordPass [] 0 none none = Except.error m) ∧
      applyRecordPass [] 0 none none = []) ∧
    ((∃ m, recordPass [⟨Category.functional, "create task", ["s1"], true⟩]
        0 (some "edited") none = Except.error m) ∧
      applyRecordPass [⟨Category.functional, "create task", ["s1"], true⟩]
        0 (some "edited") none =
        [⟨Category.functional, "create task", ["s1"], true⟩]) ∧
    ((∃ m, recordPass [⟨Category.functional, "create task", ["s1"], true⟩]
        0 none (some []) = Except.error m) ∧
      applyRecordPass [⟨Category.functional, "create task", ["s1"], true⟩]
        0 none (some []) =
        [⟨Category.functional, "create task", ["s1"], true⟩]) :=
  ⟨recordPass_idempotent_and_guarded.1
      [⟨Category.functional, "create task", ["s1"], true⟩] 0 (by decide) (by decide),
   recordPass_idempotent_and_guarded.2.1 [] 0 (by decide),
   recordPass_idempotent_and_guarded.2.2.1
      [⟨Category.functional, "create task", ["s1"], true⟩] 0 (by decide)
      "edited" (by decide),
   recordPass_idempotent_and_guarded.2.2.2
      [⟨Category.functional, "create task", ["s1"], true⟩] 0 (by decide)
      [] (by decide)⟩

/-! ## Atomic persistence of the ledger -/

/-- The backing store of the ledger: the committed main file and an optional
temporary file being written. -/
structure Store where
  main : List FeatureRecord
  temp : Option (List FeatureRecord)
deriving DecidableEq, Repr

/-- Modelled from the spec: the persistence code is not in the provided
sources; spec sections 4.4 and 5 describe write-temp-then-rename semantics.
`persistStates old new` enumerates every state the store can be observed in
if the session is interrupted during a persist: before the write, after any
prefix of the temporary file has been written, and after the atomic rename.
The main file is only ever replaced by the single rename step. -/
def persistStates (old new : List FeatureRecord) : List Store :=
  (⟨old, none⟩ : Store) ::
  (((List.range (new.length + 1)).map
      (fun k => (⟨old, some (new.take k)⟩ : Store))) ++
   [(⟨new, none⟩ : Store)])

/-- What the next session loads after an interruption: the main file only;
the temporary file is never consulted. -/
def loadAfterInterrupt (s : Store) : List FeatureRecord := s.main

/-- Claim C5: for every crash or interruption point during a persist, the
next session observes either the previously committed checklist or the fully
committed new one, never a torn or partially written one. -/
theorem persist_crash_safe (old new : List FeatureRecord) (s : Store)
    (h : s ∈ persistStates old new) :
    loadAfterInterrupt s = old ∨ loadAfterInterrupt s = new := by
  simp only [persistStates, List.mem_cons, List.mem_append, List.mem_map,
    List.mem_range, List.mem_singleton, List.not_mem_nil, or_false] at h
  rcases h with h | ⟨k, _, hs⟩ | h
  · rw [h]; exact Or.inl rfl
  · rw [← hs]; exact Or.inl rfl
  · rw [h]; exact Or.inr rfl

/-- Witness for C5: interrupting right after the empty prefix of the
temporary file was written leaves the old (empty) checklist observable. -/
theorem persist_crash_safe_witness :
    ((⟨[], some []⟩ : Store) ∈
        persistStates [] [⟨Category.functional, "create task", ["s1"], false⟩]) ∧
    (loadAfterInterrupt ⟨[], some []⟩ = [] ∨
      loadAfterInterrupt ⟨[], some []⟩ =
        [⟨Category.functional, "create task", ["s1"], false⟩]) :=
  ⟨by decide,
   persist_crash_safe [] [⟨Category.functional, "create task", ["s1"], false⟩]
     ⟨[], some []⟩ (by decide)⟩

/-! ## Preflight validator (`scripts/preflight.sh`) -/

/-- Outcome of one preflight check: the script counts an error, a warning,
or neither. -/
inductive Outcome
  | pass
  | warn
  | fail
deriving DecidableEq, Repr

/-- The environment `scripts/preflight.sh` reads: toolchain versions,
command availability, environment variables, files and the git remote.
`pythonVersion = none` means no `python3` on PATH; `gitRemote = none` means
`git remote get-url origin` fails because no `origin` remote is configured. -/
structure PfEnv where
  pythonVersion : Option (Nat × Nat)
  nodeMajor : Option Nat
  gitInstalled : Bool
  claudeCli : Bool
  anthropicApiKey : Bool
  sdkInstalled : Bool
  nodeModules : Bool
  envLocal : Option String
  gitRemote : Option String
deriving Repr

/-- Does the second character list occur at the start of the first? -/
def charsStartWith : List Char → List Char → Bool
  | _, [] => true
  | [], _ :: _ => false
  | c :: cs, d :: ds => c == d && charsStartWith cs ds

/-- Does the pattern occur anywhere in the character list? -/
def charsContain (pat : List Char) : List Char → Bool
  | [] => charsStartWith [] pat
  | c :: cs => charsStartWith (c :: cs) pat || charsContain pat cs

/-- Substring test, as `grep -q` / bash `==` with a `*pat*` glob: does `pat`
occur in `s`? -/
def containsStr (s pat : String) : Bool :=
  charsContain pat.data s.data

/-- Number of decimal digits `toString` prints for a Nat. -/
def decimalDigits (n : Nat) : Nat := (toString n).length

/-- CHECK 1's comparison `$(echo "$PYTHON_VERSION < 3.10" | bc -l)`: the
printed string `maj.mi` read back as the decimal `maj + mi/10^digits(mi)`,
compared with the decimal 3.10 = 31/10. -/
def bcLtThreeTen (maj mi : Nat) : Bool :=
  decide (10 * (maj * 10 ^ decimalDigits mi + mi) < 31 * 10 ^ decimalDigits mi)

/-- CHECK 1's body as the script's text reads: the `-z` NOT FOUND branch
counts an error when python3 is missing, OUTDATED when the bc comparison
reports the printed version below 3.10.  At runtime the NOT FOUND branch is
unreachable: under `set -e` the `PYTHON_VERSION=$(python3 ...)` assignment
aborts the whole script with status 127 first — see `preflightScriptExit`. -/
def check1Python (e : PfEnv) : Outcome :=
  match e.pythonVersion with
  | none => .fail
  | some (maj, mi) => if bcLtThreeTen maj mi then .fail else .pass

/-- CHECK 2: Node.js 20+ (major version from `node -v`). -/
def check2Node (e : PfEnv) : Outcome :=
  match e.nodeMajor with
  | none => .fail
  | some v => if v < 20 then .fail else .pass

/-- CHECK 3: Git installed. -/
def check3Git (e : PfEnv) : Outcome :=
  if e.gitInstalled then .pass else .fail

/-- CHECK 4: Claude authentication (CLI on PATH, else `ANTHROPIC_API_KEY`). -/
def check4Claude (e : PfEnv) : Outcome :=
  if e.claudeCli then .pass
  else if e.anthropicApiKey then .pass
  else .fail

/-- CHECK 5: `claude-code-sdk` importable. -/
def check5Sdk (e : PfEnv) : Outcome :=
  if e.sdkInstalled then .pass else .fail

/-- CHECK 6: npm dependencies installed (`node_modules` present); only a
warning otherwise. -/
def check6NpmDeps (e : PfEnv) : Outcome :=
  if e.nodeModules then .pass else .warn

/-- CHECK 7: Convex configured (`.env.local` exists and mentions
`CONVEX_DEPLOYMENT`); only a warning otherwise. -/
def check7Convex (e : PfEnv) : Outcome :=
  match e.envLocal with
  | some content => if containsStr content "CONVEX_DEPLOYMENT" then .pass else .warn
  | none => .warn

/-- CHECK 8's body as the script's text reads: the `-z` NOT SET branch
counts a warning, a remote still containing `pushREC/convex-mvp-builder`
warns, anything else passes.  At runtime the NOT SET branch is unreachable:
under `set -e` the `CURRENT_REMOTE=$(git remote get-url origin)` assignment
aborts the whole script with git's failure status first — see
`preflightScriptExit`. -/
def check8GitRemote (e : PfEnv) : Outcome :=
  match e.gitRemote with
  | none => .warn
  | some url =>
      if url == "" then .warn
      else if containsStr url "pushREC/convex-mvp-builder" then .warn
      else .pass

/-- The eight check outcomes, in script order. -/
def preflightOutcomes (e : PfEnv) : List Outcome :=
  [check1Python e, check2Node e, check3Git e, check4Claude e,
   check5Sdk e, check6NpmDeps e, check7Convex e, check8GitRemote e]

/-- The `ERRORS` counter at the SUMMARY: one increment per failing check. -/
def preflightErrors (e : PfEnv) : Nat :=
  (preflightOutcomes e).count .fail

/-- The `WARNINGS` counter at the SUMMARY: one increment per warning check. -/
def preflightWarnings (e : PfEnv) : Nat :=
  (preflightOutcomes e).count .warn

/-- The SUMMARY's exit code: `exit 0` when errors and warnings are both zero,
`exit 0` again when only warnings remain, `exit 1` otherwise. -/
def preflightExit (e : PfEnv) : Nat :=
  if preflightErrors e == 0 && preflightWarnings e == 0 then 0
  else if preflightErrors e == 0 then 0
  else 1

/-- The SUMMARY's headline message, per branch of the script. -/
def preflightSummary (e : PfEnv) : String :=
  if preflightErrors e == 0 && preflightWarnings e == 0 then
    "All checks passed!"
  else if preflightErrors e == 0 then
    toString (preflightWarnings e) ++ " warning(s), 0 errors"
  else
    toString (preflightErrors e) ++ " error(s), " ++
      toString (preflightWarnings e) ++ " warning(s)"

/-- The exit code of a whole run of `preflight.sh`, `set -e` included: the
script starts with `set -e`, and a failing command substitution in a plain
assignment aborts it with that command's status.  With python3 absent the
`PYTHON_VERSION=$(python3 ...)` assignment in CHECK 1 aborts with 127; with
git absent the unconditional `CURRENT_REMOTE=$(git remote get-url origin)`
assignment in CHECK 8 aborts with 127 (command not found); with git present
but no `origin` remote that assignment aborts with git's status 2.  Only
when all three succeed does the script reach the SUMMARY and exit with
`preflightExit`. -/
def preflightScriptExit (e : PfEnv) : Nat :=
  match e.pythonVersion with
  | none => 127
  | some _ =>
      if e.gitInstalled then
        match e.gitRemote with
        | none => 2
        | some _ => preflightExit e
      else 127

/-! ## Setup verification (`scripts/verify-setup.js`) -/

/-- The environment `scripts/verify-setup.js` reads. -/
structure VsEnv where
  nodeMajor : Nat
  envLocal : Option String
  nodeModules : Bool
  convexFolder : Bool
deriving Repr

/-- First match of the regex `key(.+)` over a character list: the engine
scans position by position; a position matches only when the literal key is
followed by at least one non-newline character, and the greedy group then
captures the whole run of non-newline characters.  A position where the key
occurs but the group cannot match (line ends right after the key) is skipped
and scanning continues from the next character. -/
def regexCapture (key : List Char) : List Char → Option (List Char)
  | [] => none
  | c :: cs =>
      if charsStartWith (c :: cs) key then
        match (List.drop key.length (c :: cs)).takeWhile (fun ch => ch != '\n') with
        | [] => regexCapture key cs
        | v :: vs => some (v :: vs)
      else regexCapture key cs

/-- JS `String.prototype.trim` on ASCII content: strip leading and trailing
whitespace characters. -/
def trimChars (cs : List Char) : List Char :=
  ((cs.dropWhile Char.isWhitespace).reverse.dropWhile Char.isWhitespace).reverse

/-- The value `verify-setup.js` extracts:
`envContent.match(/NEXT_PUBLIC_CONVEX_URL=(.+)/)`, then `match[1].trim()`;
`none` when the regex does not match. -/
def extractConvexUrl (content : String) : Option String :=
  match regexCapture ("NEXT_PUBLIC_CONVEX_URL=".data) content.data with
  | none => none
  | some v => some (String.mk (trimChars v))

/-- Check 3 of verify-setup.js: `NEXT_PUBLIC_CONVEX_URL` is set, nonempty
and not a commented-out line. -/
def vsCheck3 (e : VsEnv) : Bool :=
  match e.envLocal with
  | none => false
  | some content =>
      match extractConvexUrl content with
      | none => false
      | some url => 0 < url.length && !(url.startsWith "#")

/-- The five pass/fail conditions of verify-setup.js, in script order. -/
def vsChecks (e : VsEnv) : List Bool :=
  [decide (20 ≤ e.nodeMajor), e.envLocal.isSome, vsCheck3 e,
   e.nodeModules, e.convexFolder]

/-- `hasErrors` of verify-setup.js: some check reported FAIL. -/
def vsHasErrors (e : VsEnv) : Bool :=
  (vsChecks e).any (fun b => !b)

/-- The `process.exit` code of verify-setup.js. -/
def vsExit (e : VsEnv) : Nat :=
  if vsHasErrors e then 1 else 0

/-- `preflightExit` collapses to: 0 iff no error was counted. -/
theorem preflightExit_eq (e : PfEnv) :
    preflightExit e = if preflightErrors e = 0 then 0 else 1 := by
  unfold preflightExit
  rcases Nat.eq_zero_or_pos (preflightErrors e) with h | h
  · simp [h]
  · simp [Nat.pos_iff_ne_zero.mp h]

/-- The aggregation the scripts intend: once `preflight.sh` reaches its
SUMMARY the exit code is 0 iff no check counted an error (warnings allowed)
and 1 iff some check did, and `verify-setup.js` exits 0 iff no check FAILed.
`preflight.sh` only realises this on environments that survive its `set -e`
abort points — see `preflightScriptExit` and
`preflight_set_e_abort_diverges`. -/
theorem preflight_exit_aggregates_failures :
    (∀ e : PfEnv,
      (preflightExit e = 0 ↔ (preflightOutcomes e).count Outcome.fail = 0) ∧
      (preflightExit e = 1 ↔ 0 < (preflightOutcomes e).count Outcome.fail)) ∧
    (∀ e : VsEnv,
      (vsExit e = 0 ↔ vsHasErrors e = false) ∧
      (vsExit e = 1 ↔ vsHasErrors e = true)) := by
  constructor
  · intro e
    rw [preflightExit_eq, preflightErrors]
    rcases Nat.eq_zero_or_pos ((preflightOutcomes e).count Outcome.fail) with h | h
    · simp [h]
    · simp [Nat.pos_iff_ne_zero.mp h, h]
  · intro e
    unfold vsExit
    cases hx : vsHasErrors e
    · simp [hx]
    · simp [hx]

/-- Claim C4 (code bug): the claim — aggregate exit code 0 when no check
failed (warnings allowed), 1 when at least one check failed — matches the
SUMMARY logic and the script's own error/warning branches, but `set -e`
makes `preflight.sh` abort at its failing command substitutions before the
SUMMARY: an otherwise healthy environment with no `origin` remote has zero
failing checks yet the script exits 2, and an environment without python3
has a failing check yet the script exits 127. -/
theorem preflight_set_e_abort_diverges :
    preflightScriptExit
        ⟨some (3, 11), some 20, true, true, false, true, true,
         some "CONVEX_DEPLOYMENT=dev:x", none⟩ = 2 ∧
    (preflightOutcomes
        ⟨some (3, 11), some 20, true, true, false, true, true,
         some "CONVEX_DEPLOYMENT=dev:x", none⟩).count Outcome.fail = 0 ∧
    preflightScriptExit
        ⟨none, some 20, true, true, false, true, true,
         some "CONVEX_DEPLOYMENT=dev:x", some "https://github.com/me/app"⟩ = 127 ∧
    0 < (preflightOutcomes
        ⟨none, some 20, true, true, false, true, true,
         some "CONVEX_DEPLOYMENT=dev:x",
         some "https://github.com/me/app"⟩).count Outcome.fail := by
  decide

/-! ## Read-only nature of the preflight scripts -/

/-- One preflight step as a state transformer over the environment: the
script's checks only inspect the environment, so each step returns it as
read. -/
def stepCheck (f : PfEnv → Outcome) (e : PfEnv) : Outcome × PfEnv :=
  (f e, e)

/-- `scripts/preflight.sh` run as a state-passing computation: its eight
checks in order, threading the environment each check observes, then the
summary computed from the outcomes. -/
def runPreflightThreaded (e : PfEnv) : (List Outcome × Nat) × PfEnv :=
  let (o1, e1) := stepCheck check1Python e
  let (o2, e2) := stepCheck check2Node e1
  let (o3, e3) := stepCheck check3Git e2
  let (o4, e4) := stepCheck check4Claude e3
  let (o5, e5) := stepCheck check5Sdk e4
  let (o6, e6) := stepCheck check6NpmDeps e5
  let (o7, e7) := stepCheck check7Convex e6
  let (o8, e8) := stepCheck check8GitRemote e7
  (([o1, o2, o3, o4, o5, o6, o7, o8], preflightExit e8), e8)

/-- One verify-setup step as a state transformer over its environment. -/
def vsStepCheck (f : VsEnv → Bool) (e : VsEnv) : Bool × VsEnv :=
  (f e, e)

/-- `scripts/verify-setup.js` run as a state-passing computation: its five
checks in order, threading the environment, then the exit code. -/
def runVerifySetupThreaded (e : VsEnv) : (List Bool × Nat) × VsEnv :=
  let (b1, e1) := vsStepCheck (fun x => decide (20 ≤ x.nodeMajor)) e
  let (b2, e2) := vsStepCheck (fun x => x.envLocal.isSome) e1
  let (b3, e3) := vsStepCheck vsCheck3 e2
  let (b4, e4) := vsStepCheck (fun x => x.nodeModules) e3
  let (b5, e5) := vsStepCheck (fun x => x.convexFolder) e4
  (([b1, b2, b3, b4, b5], vsExit e5), e5)

/-- Claim C9: running the preflight validator mutates no state: both scripts,
run over an explicit environment, return that environment unchanged —
everything they do is a read feeding the report and exit code. -/
theorem preflight_mutates_no_state :
    (∀ e : PfEnv, (runPreflightThreaded e).2 = e) ∧
    (∀ e : VsEnv, (runVerifySetupThreaded e).2 = e) :=
  ⟨fun _ => rfl, fun _ => rfl⟩

/-- Claim C10: when the git remote origin still points at the template
repository `pushREC/convex-mvp-builder`, CHECK 8 counts only a warning, so
with no failing checks the script exits 0 and its summary is the
warnings-only "you can proceed" branch. -/
theorem template_remote_is_warning_only
    (e : PfEnv) (url : String)
    (hurl : e.gitRemote = some url)
    (hne : (url == "") = false)
    (htmpl : containsStr url "pushREC/convex-mvp-builder" = true)
    (hnoerr : preflightErrors e = 0) :
    check8GitRemote e = Outcome.warn ∧
    preflightExit e = 0 ∧
    preflightSummary e =
      toString (preflightWarnings e) ++ " warning(s), 0 errors" := by
  have h8 : check8GitRemote e = Outcome.warn := by
    rw [check8GitRemote, hurl]
    simp [hne, htmpl]
  have hw : 0 < preflightWarnings e := by
    rw [preflightWarnings]
    refine List.count_pos_iff.mpr ?_
    rw [preflightOutcomes, ← h8]
    simp
  refine ⟨h8, ?_, ?_⟩
  · rw [preflightExit_eq]
    simp [hnoerr]
  · rw [preflightSummary]
    have he : (preflightErrors e == 0) = true := by simp [hnoerr]
    have hwne : (preflightWarnings e == 0) = false := by
      simp [Nat.pos_iff_ne_zero.mp hw]
    rw [he, hwne]
    simp

/-- Witness for C10: a fully healthy environment whose remote is still the
template repository warns on CHECK 8 and exits 0. -/
theorem template_remote_is_warning_only_witness :
    check8GitRemote
        ⟨some (3, 11), some 20, true, true, false, true, true,
         some "CONVEX_DEPLOYMENT=dev:x",
         some "https://github.com/pushREC/convex-mvp-builder"⟩ = Outcome.warn ∧
    preflightExit
        ⟨some (3, 11), some 20, true, true, false, true, true,
         some "CONVEX_DEPLOYMENT=dev:x",
         some "https://github.com/pushREC/convex-mvp-builder"⟩ = 0 ∧
    preflightSummary
        ⟨some (3, 11), some 20, true, true, false, true, true,
         some "CONVEX_DEPLOYMENT=dev:x",
         some "https://github.com/pushREC/convex-mvp-builder"⟩ =
      toString (preflightWarnings
        ⟨some (3, 11), some 20, true, true, false, true, true,
         some "CONVEX_DEPLOYMENT=dev:x",
         some "https://github.com/pushREC/convex-mvp-builder"⟩) ++
        " warning(s), 0 errors" :=
  template_remote_is_warning_only
    ⟨some (3, 11), some 20, true, true, false, true, true,
     some "CONVEX_DEPLOYMENT=dev:x",
     some "https://github.com/pushREC/convex-mvp-builder"⟩
    "https://github.com/pushREC/convex-mvp-builder"
    rfl (by decide) (by decide) (by decide)
